import Mathlib

/-!
# akita-feeder: episode-to-feed mapping and feed assembly

A shallow embedding of `main.go` of the akita-feeder program.  The program
fetches the episode list of one comic from the mangacross JSON API, maps every
episode to a feed item and assembles a feed that is then served as RSS or Atom.

Modelling decisions

* Go `int` is embedded as `Int`; every theorem below is stated for all of `Int`,
  which contains every value a 64-bit `int` can take.
* Go pointers that may be nil (`*time.Time`, `*feeder.Link`, `*feeder.Author`)
  are `Option`s; `[]*feeder.Item` is a `List` of items (the items themselves are
  never nil) and the nil slice is the empty list.
* Go strings are embedded as Lean strings, sequences of Unicode characters whose
  bytes are their UTF-8 encoding.
* A Go result pair `(value, error)` is kept as a value together with an
  `Option GoError`, `none` standing for the nil error.
* The network (`http.Get`) and the JSON decoder (`encoding/json`) are library
  code outside the program: they are fields of `World`, about which nothing is
  assumed.  `World.getCalls` records the strings passed to `http.Get` and
  `World.requested` the URLs it issues a request for, after the URL handling of
  `net/url` that is embedded below.
* The `feeder` record types are declared in the `feeder` library; they are
  embedded with the fields that `main.go` assigns.
-/

namespace AkitaFeeder

/-! ## Library types -/

/-- Go `time.Time` without a monotonic clock reading: `wall` holds the
nanoseconds, `ext` the seconds elapsed since January 1 of year 1, 00:00:00 UTC,
and `loc` the location name (`none` is UTC).  The Go zero value is
`⟨0, 0, none⟩`. -/
structure Time where
  wall : Nat
  ext : Int
  loc : Option String
  deriving DecidableEq

/-- The zero value of `time.Time`. -/
def Time.zero : Time := ⟨0, 0, none⟩

/-- Go `time.November`. -/
def November : Nat := 11

/-- Leap-year test of the `time` package. -/
def isLeap (year : Nat) : Bool :=
  year % 4 == 0 && (year % 100 != 0 || year % 400 == 0)

/-- Days before the first day of `month` (1-based) in a non-leap year. -/
def daysBefore (month : Nat) : Nat :=
  [0, 31, 59, 90, 120, 151, 181, 212, 243, 273, 304, 334].getD (month - 1) 0

/-- Go `time.Date(year, month, day, hour, min, sec, nsec, time.UTC)` for
arguments that are already in range (`year ≥ 1`, `1 ≤ month ≤ 12`, and so on),
which is how `main` calls it. -/
def Date (year month day hour min sec nsec : Nat) : Time :=
  let y := year - 1
  let d := 365 * y + y / 4 - y / 100 + y / 400 + daysBefore month
  let d := if isLeap year && decide (3 ≤ month) then d + 1 else d
  let d := d + (day - 1)
  ⟨nsec, ((d * 86400 + hour * 3600 + min * 60 + sec : Nat) : Int), none⟩

/-- Go `error` values as the program builds them: an error coming from a
library, or an error wrapped with a message by `errors.Wrap`. -/
inductive GoError where
  | base (msg : String)
  | wrap (cause : GoError) (msg : String)
  deriving DecidableEq

/-- The `errors.Wrap` function of `github.com/pkg/errors`: nil stays nil, any
other error is annotated with the message. -/
def Wrap (err : Option GoError) (message : String) : Option GoError :=
  match err with
  | none => none
  | some e => some (GoError.wrap e message)

/-- The `feeder.Link` record, with the field the program sets. -/
structure Link where
  Href : String
  deriving DecidableEq

/-- The `feeder.Author` record. -/
structure Author where
  Name : String
  Email : String
  deriving DecidableEq

/-- The `feeder.Item` record, with the fields the program sets. -/
structure Item where
  Title : String
  Link : Option Link
  Created : Option Time
  ID : String
  Description : String
  deriving DecidableEq

/-- The `feeder.Feed` record, with the fields the program sets. -/
structure Feed where
  Title : String
  Link : Option Link
  Description : String
  Author : Option Author
  Created : Time
  Items : List Item
  deriving DecidableEq

/-- The Go zero value `feeder.Feed{}`. -/
def Feed.zero : Feed := ⟨"", none, "", none, Time.zero, []⟩

/-! ## Formatting of integers (`fmt.Sprintf("%d", _)`) -/

/-- The byte `'0' + d`. -/
def digitByte (d : Nat) : Char := Char.ofNat (48 + d)

/-- The decimal loop of `fmt`: while `u ≥ 10` the last digit is written in front
of what was produced so far; the leading digit is written at the end.  `fuel`
bounds the number of iterations. -/
def fmtDecimalLoop : Nat → Nat → List Char → List Char
  | 0, u, buf => digitByte u :: buf
  | fuel + 1, u, buf =>
    if 10 ≤ u then
      let next := u / 10
      fmtDecimalLoop fuel next (digitByte (u - next * 10) :: buf)
    else digitByte u :: buf

/-- The verb `%d` applied to an integer: the digits of the magnitude, preceded by
`-` when the integer is negative.  The loop runs at most `|n|` times, which is
more than the number of digits. -/
def fmtInteger (n : Int) : String :=
  let digits := fmtDecimalLoop n.natAbs n.natAbs []
  String.mk (if n < 0 then '-' :: digits else digits)

/-! ## Data model of `main.go` -/

/-- One episode as decoded from the upstream JSON. -/
structure episode where
  ID : Int
  Volume : String
  SortVolume : Int
  PageCount : Int
  Title : String
  PublishStart : Option Time
  PublishEnd : Option Time
  MemberPublishStart : Option Time
  MemberPublishEnd : Option Time
  Status : String
  PageURL : String
  OgpURL : String
  ListImageURL : String
  ListImageDoubleURL : String
  EpisodeNextDate : String
  NextDateCustomizeText : String
  IsUnlimitedComic : Bool
  deriving DecidableEq

/-- The `comic` record. -/
structure comic where
  Episodes : List episode
  deriving DecidableEq

/-- The `akitaResponse` record. -/
structure akitaResponse where
  Comic : comic
  deriving DecidableEq

/-- The `akitaCrawler` record. -/
structure akitaCrawler where
  TitleID : String
  deriving DecidableEq

/-- The `akitaHandlerBuilder` record. -/
structure akitaHandlerBuilder where
  TitleID : String
  Title : String
  Link : String
  Description : String
  Created : Time
  deriving DecidableEq

/-! ## URL handling of `net/url` and `net/http`

What `http.Get` does with the string it is given before anything is sent: the
string is parsed by `url.Parse`, a request is issued only for an http or https
URL with a host, and the request names the escaped path and the raw query.
Strings are lists of characters; paths are handled as byte strings because
escapes are decoded and encoded byte by byte. -/

/-- UTF-8 encoding of one character, as byte values. -/
def utf8Bytes (c : Char) : List Nat :=
  let v := c.toNat
  if v < 128 then [v]
  else if v < 2048 then [192 + v / 64, 128 + v % 64]
  else if v < 65536 then [224 + v / 4096, 128 + v / 64 % 64, 128 + v % 64]
  else [240 + v / 262144, 128 + v / 4096 % 64, 128 + v / 64 % 64, 128 + v % 64]

/-- The bytes of a Go string. -/
def toBytes : List Char → List Nat
  | [] => []
  | c :: cs => utf8Bytes c ++ toBytes cs

/-- A Go string whose bytes are all ASCII. -/
def ofBytes (bs : List Nat) : List Char := bs.map Char.ofNat

/-- Go `strings.Cut(s, sep)` for a one-byte separator: the part before the first
`sep`, the part after it, and whether `sep` occurs. -/
def cut (sep : Char) : List Char → List Char × List Char × Bool
  | [] => ([], [], false)
  | c :: cs =>
    if c = sep then ([], cs, true)
    else ((c :: (cut sep cs).1), (cut sep cs).2.1, (cut sep cs).2.2)

/-- Go `strings.HasPrefix`. -/
def startsWith (s p : List Char) : Bool := s.take p.length == p

/-- The function `stringContainsCTLByte` of `net/url`. -/
def stringContainsCTLByte (s : List Char) : Bool :=
  s.any (fun c => decide (c.toNat < 32) || decide (c.toNat = 127))

/-- The loop of `getScheme` of `net/url`; `i` is the index of the next byte. -/
def getSchemeLoop (rawURL : List Char) : List Char → Nat → Option (List Char × List Char)
  | [], _ => some ([], rawURL)
  | c :: cs, i =>
    if c.isAlpha then getSchemeLoop rawURL cs (i + 1)
    else if c.isDigit || c = '+' || c = '-' || c = '.' then
      if i = 0 then some ([], rawURL) else getSchemeLoop rawURL cs (i + 1)
    else if c = ':' then
      if i = 0 then none else some (rawURL.take i, cs)
    else some ([], rawURL)

/-- The function `getScheme` of `net/url`: the scheme and the rest, `none` for the
error "missing protocol scheme". -/
def getScheme (rawURL : List Char) : Option (List Char × List Char) :=
  getSchemeLoop rawURL rawURL 0

/-- The function `ishex` of `net/url`. -/
def ishex (b : Nat) : Bool :=
  (decide (48 ≤ b) && decide (b ≤ 57)) || (decide (97 ≤ b) && decide (b ≤ 102)) ||
    (decide (65 ≤ b) && decide (b ≤ 70))

/-- The function `unhex` of `net/url`. -/
def unhex (b : Nat) : Nat :=
  if 48 ≤ b ∧ b ≤ 57 then b - 48
  else if 97 ≤ b ∧ b ≤ 102 then b - 97 + 10
  else if 65 ≤ b ∧ b ≤ 70 then b - 65 + 10
  else 0

/-- The function `unescape` of `net/url` in the modes for a path and for a
fragment: `none` when a percent sign is not followed by two hexadecimal digits,
the bytes with every escape decoded otherwise. -/
def unescape : List Nat → Option (List Nat)
  | [] => some []
  | b :: rest =>
    if b = 37 then
      match rest with
      | hi :: lo :: rest2 =>
        if ishex hi && ishex lo then
          (unescape rest2).map (fun r => (unhex hi * 16 + unhex lo) :: r)
        else none
      | _ => none
    else (unescape rest).map (fun r => b :: r)

/-- The function `shouldEscape` of `net/url` in the mode for a path: letters,
digits and the bytes `- _ . ~ $ & + , / : ; = @` stay, every other byte is
escaped. -/
def shouldEscape (b : Nat) : Bool :=
  if (97 ≤ b ∧ b ≤ 122) ∨ (65 ≤ b ∧ b ≤ 90) ∨ (48 ≤ b ∧ b ≤ 57) then false
  else if b ∈ [45, 95, 46, 126] then false
  else if b ∈ [36, 38, 43, 44, 47, 58, 59, 61, 64] then false
  else true

/-- The digit `"0123456789ABCDEF"[d]`. -/
def upperhex (d : Nat) : Nat := if d < 10 then 48 + d else 55 + d

/-- The function `escape` of `net/url` in the mode for a path. -/
def escape : List Nat → List Nat
  | [] => []
  | b :: rest =>
    if shouldEscape b then 37 :: upperhex (b / 16) :: upperhex (b % 16) :: escape rest
    else b :: escape rest

/-- The function `validEncoded` of `net/url` in the mode for a path: the bytes
`! $ & ' ( ) * + , ; = : @ [ ] %` are accepted, any other byte when it need not
be escaped. -/
def validEncoded (s : List Nat) : Bool :=
  s.all (fun b =>
    decide (b ∈ [33, 36, 38, 39, 40, 41, 42, 43, 44, 59, 61, 58, 64, 91, 93, 37])
      || !shouldEscape b)

/-- The `net/url` record `URL`, without user information and fragment. `Path` and
`RawPath` are byte strings. -/
structure URL where
  Scheme : List Char
  Opaque : List Char
  Host : List Char
  Path : List Nat
  RawPath : List Nat
  ForceQuery : Bool
  RawQuery : List Char
  deriving DecidableEq

/-- The function `parseAuthority` of `net/url` for an authority that is a plain
host name, made of letters, digits and the bytes `- . _ ~`, which it returns
unchanged.  Authorities with user information, a port, an IP literal or any other
byte are outside this model and give `none`; the URL that `Crawl` builds has the
authority `mangacross.jp` whatever the title identifier is
(`Parse_comic_URL_host`). -/
def parseAuthority (authority : List Char) : Option (List Char) :=
  if authority.all (fun c => c.isAlphanum || c = '-' || c = '.' || c = '_' || c = '~')
  then some authority else none

/-- The method `URL.setPath` of `net/url`. -/
def setPath (u : URL) (p : List Char) : Option URL :=
  match unescape (toBytes p) with
  | none => none
  | some path =>
    some { u with Path := path, RawPath := if toBytes p = escape path then [] else toBytes p }

/-- The query step of `parse` of `net/url`: whether the query is forced (the
rest ends with its only question mark), the rest without the query, and the raw
query. -/
def splitQuery (rest : List Char) : Bool × List Char × List Char :=
  if rest.getLast? = some '?' && rest.count '?' = 1 then (true, rest.dropLast, [])
  else (false, (cut '?' rest).1, (cut '?' rest).2.1)

/-- The steps of `parse` of `net/url` that follow the query step, with
`viaRequest` false: an opaque URL, the colon check of a relative URL, the
authority, the path. -/
def parseHierarchy (url : URL) (rest : List Char) : Option URL :=
  if !startsWith rest ['/'] && url.Scheme ≠ [] then some { url with Opaque := rest }
  else if !startsWith rest ['/'] && (cut '/' rest).1.contains ':' then none
  else if (url.Scheme ≠ [] || !startsWith rest ['/', '/', '/']) && startsWith rest ['/', '/'] then
    let authority := (cut '/' (rest.drop 2)).1
    let rest := (rest.drop 2).drop authority.length
    match parseAuthority authority with
    | none => none
    | some host => setPath { url with Host := host } rest
  else setPath url rest

/-- The function `parse` of `net/url`, called with `viaRequest` false. -/
def parse (rawURL : List Char) : Option URL :=
  if stringContainsCTLByte rawURL then none
  else if rawURL = ['*'] then some ⟨[], [], [], [42], [], false, []⟩
  else
    match getScheme rawURL with
    | none => none
    | some (scheme, rest) =>
      parseHierarchy
        ⟨scheme.map Char.toLower, [], [], [], [], (splitQuery rest).1, (splitQuery rest).2.2⟩
        (splitQuery rest).2.1

/-- The function `Parse` of `net/url`: the fragment is cut off and only checked
for valid escapes. -/
def Parse (rawURL : List Char) : Option URL :=
  match parse (cut '#' rawURL).1 with
  | none => none
  | some url =>
    if (cut '#' rawURL).2.1 = [] then some url
    else
      match unescape (toBytes (cut '#' rawURL).2.1) with
      | none => none
      | some _ => some url

/-- The method `URL.EscapedPath` of `net/url`. -/
def EscapedPath (u : URL) : List Nat :=
  if u.RawPath ≠ [] ∧ validEncoded u.RawPath = true ∧ unescape u.RawPath = some u.Path then
    u.RawPath
  else if u.Path = [42] then [42]
  else escape u.Path

/-- The method `URL.RequestURI` of `net/url`. -/
def RequestURI (u : URL) : List Char :=
  let result :=
    if u.Opaque = [] then
      if EscapedPath u = [] then ['/'] else ofBytes (EscapedPath u)
    else if startsWith u.Opaque ['/', '/'] then u.Scheme ++ [':'] ++ u.Opaque
    else u.Opaque
  if u.ForceQuery || u.RawQuery ≠ [] then result ++ ['?'] ++ u.RawQuery else result

/-- The URL that `http.Get(url)` issues its request for: `none` when no request
is issued, because the string does not parse, the scheme is neither http nor
https, or there is no host. -/
def requestURL (url : String) : Option String :=
  match Parse url.data with
  | none => none
  | some u =>
    if (u.Scheme = "http".data ∨ u.Scheme = "https".data) ∧ u.Host ≠ [] then
      some (String.mk (u.Scheme ++ "://".data ++ u.Host ++ RequestURI u))
    else none

/-- Letters, digits and the characters `- . _ ~`. -/
def unreserved (c : Char) : Bool :=
  decide ((97 ≤ c.toNat ∧ c.toNat ≤ 122) ∨ (65 ≤ c.toNat ∧ c.toNat ≤ 90) ∨
    (48 ≤ c.toNat ∧ c.toNat ≤ 57) ∨ c.toNat = 45 ∨ c.toNat = 46 ∨ c.toNat = 95 ∨
    c.toNat = 126)

/-- Characters of a path that `net/url` leaves as they are: the unreserved ones
and the slash. -/
def pathPlain (c : Char) : Bool := unreserved c || decide (c.toNat = 47)

/-! ## The outside world -/

/-- What the program sees of the outside: `respond url` is the outcome of
`http.Get(url)` for the argument string `url` (the response body, or an error,
a refused URL being one of the possible errors), `decodeJSON body` the outcome
of decoding that body into an `akitaResponse`.  `getCalls` lists the strings that
were passed to `http.Get` and `requested` the URLs for which `http.Get` issued
its request, both oldest first; a request that the server redirects is followed
inside `respond`. -/
structure World where
  respond : String → Except GoError String
  decodeJSON : String → Except GoError akitaResponse
  getCalls : List String
  requested : List String

/-- Go `http.Get`: records the call, records the request when one is issued, and
returns what the world answers. -/
def httpGet (w : World) (url : String) : World × Except GoError String :=
  ({ w with
      getCalls := w.getCalls ++ [url]
      requested :=
        match requestURL url with
        | some u => w.requested ++ [u]
        | none => w.requested },
    w.respond url)

/-! ## The program -/

/-- The function `convertEpisodeToItem` of `main.go`. -/
def convertEpisodeToItem (e : episode) : Item :=
  { Title := e.Title
    Link := some { Href := "https://mangacross.jp" ++ e.PageURL }
    Created := e.PublishStart
    ID := fmtInteger e.ID
    Description := e.Title }

/-- Result of `Crawl`: the world after the call, the receiver after the call,
and the returned pair. -/
structure CrawlResult where
  world : World
  recv : akitaCrawler
  items : List Item
  err : Option GoError

/-- The method `akitaCrawler.Crawl` of `main.go`. -/
def Crawl (w : World) (crawler : akitaCrawler) : CrawlResult :=
  let url := "https://mangacross.jp/api/comics/" ++ crawler.TitleID ++ ".json"
  match httpGet w url with
  | (w1, Except.error err) =>
    ⟨w1, crawler, [], Wrap (some err) "failed to get response from qiita."⟩
  | (w1, Except.ok body) =>
    match w1.decodeJSON body with
    | Except.error err =>
      ⟨w1, crawler, [], Wrap (some err) "failed to decode response body."⟩
    | Except.ok akita =>
      let items := akita.Comic.Episodes.foldl
        (fun items episode => items ++ [convertEpisodeToItem episode]) []
      ⟨w1, crawler, items, none⟩

/-- Result of `buildFeed`: the world after the call, the receiver after the
call, and the returned pair. -/
structure BuildResult where
  world : World
  recv : akitaHandlerBuilder
  feed : Feed
  err : Option GoError

/-- The method `akitaHandlerBuilder.buildFeed` of `main.go`. -/
def buildFeed (w : World) (h : akitaHandlerBuilder) : BuildResult :=
  let crawler : akitaCrawler := { TitleID := h.TitleID }
  let r := Crawl w crawler
  match r.err with
  | some err => ⟨r.world, h, Feed.zero, some err⟩
  | none =>
    ⟨r.world, h,
      { Title := h.Title
        Link := some { Href := h.Link }
        Description := h.Description
        Author := some { Name := "", Email := "" }
        Created := h.Created
        Items := r.items },
      none⟩

/-- The configuration `yabaiHandlerBuilder` built in `main`. -/
def yabaiHandlerBuilder : akitaHandlerBuilder :=
  { TitleID := "yabai"
    Title := "僕の心のヤバイやつ"
    Link := "https://feeds.kuminecraft.xyz"
    Description := "「僕の心のヤバイやつ」の非公式RSSリーダーです"
    Created := Date 2020 November 11 12 0 0 0 }

/-! ## Reading a decimal integer back -/

/-- Value of a decimal digit character. -/
def digitVal (c : Char) : Option Nat :=
  if 48 ≤ c.toNat ∧ c.toNat ≤ 57 then some (c.toNat - 48) else none

/-- Reads a run of decimal digits, most significant first, continuing the value
`acc`; fails on the first character that is not a digit. -/
def parseDigits : List Char → Nat → Option Nat
  | [], acc => some acc
  | c :: cs, acc =>
    match digitVal c with
    | some d => parseDigits cs (acc * 10 + d)
    | none => none

/-- Parses a string as a decimal integer: an optional sign followed by at least
one digit and nothing else. -/
def parseDecimal (s : String) : Option Int :=
  match s.data with
  | [] => none
  | c :: cs =>
    if c = '-' then
      if cs = [] then none else (parseDigits cs 0).map (fun n => -(n : Int))
    else if c = '+' then
      if cs = [] then none else (parseDigits cs 0).map (fun n => (n : Int))
    else (parseDigits (c :: cs) 0).map (fun n => (n : Int))

/-! ## Sample data -/

/-- A published episode. -/
def sampleEpisode1 : episode :=
  { ID := 101, Volume := "karte.1", SortVolume := 3, PageCount := 20,
    Title := "僕は奪われた",
    PublishStart := some (Date 2018 3 8 0 0 0 0),
    PublishEnd := none, MemberPublishStart := none, MemberPublishEnd := none,
    Status := "public", PageURL := "/comics/yabai/1",
    OgpURL := "https://mangacross.jp/images/1/ogp.jpg",
    ListImageURL := "https://mangacross.jp/images/1/list.jpg",
    ListImageDoubleURL := "https://mangacross.jp/images/1/list2.jpg",
    EpisodeNextDate := "", NextDateCustomizeText := "", IsUnlimitedComic := false }

/-- A member-only episode without publish-start, with a negative id, a smaller
sort key than the episode before it and an empty page path. -/
def sampleEpisode2 : episode :=
  { ID := -7, Volume := "karte.2", SortVolume := 1, PageCount := 0,
    Title := "僕は死んだ",
    PublishStart := none,
    PublishEnd := some (Date 2019 1 1 0 0 0 0),
    MemberPublishStart := some (Date 2018 4 1 0 0 0 0),
    MemberPublishEnd := some (Date 2018 5 1 0 0 0 0),
    Status := "member_only", PageURL := "",
    OgpURL := "", ListImageURL := "", ListImageDoubleURL := "",
    EpisodeNextDate := "4/5", NextDateCustomizeText := "soon", IsUnlimitedComic := true }

/-- An episode with id zero and a page path that starts with several slashes. -/
def sampleEpisode3 : episode :=
  { ID := 0, Volume := "", SortVolume := 2, PageCount := 12,
    Title := "",
    PublishStart := some Time.zero,
    PublishEnd := none, MemberPublishStart := none, MemberPublishEnd := none,
    Status := "private", PageURL := "///comics//yabai/3",
    OgpURL := "", ListImageURL := "", ListImageDoubleURL := "",
    EpisodeNextDate := "", NextDateCustomizeText := "", IsUnlimitedComic := false }

/-- The first sample episode with every field changed that the mapper does not
read. -/
def sampleEpisode1Other : episode :=
  { ID := 101, Volume := "extra", SortVolume := -40, PageCount := 99,
    Title := "僕は奪われた",
    PublishStart := some (Date 2018 3 8 0 0 0 0),
    PublishEnd := some (Date 2030 1 1 0 0 0 0),
    MemberPublishStart := some (Date 2017 1 1 0 0 0 0),
    MemberPublishEnd := some (Date 2031 1 1 0 0 0 0),
    Status := "member_only", PageURL := "/comics/yabai/1",
    OgpURL := "o", ListImageURL := "l", ListImageDoubleURL := "d",
    EpisodeNextDate := "1/1", NextDateCustomizeText := "t", IsUnlimitedComic := true }

/-- The decoded answer holding the three sample episodes. -/
def sampleResponse : akitaResponse :=
  { Comic := { Episodes := [sampleEpisode1, sampleEpisode2, sampleEpisode3] } }

/-- A world in which the upstream answers the request for the comic yabai with a
body that decodes to the three sample episodes, and fails for any other URL. -/
def sampleWorld : World :=
  { respond := fun url =>
      if url = "https://mangacross.jp/api/comics/yabai.json" then Except.ok "yabai-body"
      else Except.error (GoError.base "not found")
    decodeJSON := fun body =>
      if body = "yabai-body" then Except.ok sampleResponse
      else Except.error (GoError.base "unexpected end of JSON input")
    getCalls := []
    requested := [] }

/-- A world in which the upstream cannot be reached. -/
def downWorld : World :=
  { respond := fun _ => Except.error (GoError.base "connection refused")
    decodeJSON := fun _ => Except.ok sampleResponse
    getCalls := []
    requested := [] }

/-- A world in which the upstream answers with a body that is not JSON. -/
def garbledWorld : World :=
  { respond := fun _ => Except.ok "<html>"
    decodeJSON := fun _ => Except.error (GoError.base "invalid character")
    getCalls := []
    requested := [] }

/-! ## Auxiliary lemmas -/

theorem foldl_append_singleton {α β : Type} (f : α → β) (xs : List α) (acc : List β) :
    xs.foldl (fun items x => items ++ [f x]) acc = acc ++ xs.map f := by
  induction xs generalizing acc with
  | nil => simp
  | cons x xs ih => simp [ih]

theorem digitVal_digitByte (d : Nat) (hd : d < 10) : digitVal (digitByte d) = some d := by
  interval_cases d <;> decide

theorem digitByte_ne_sign (d : Nat) (hd : d < 10) :
    digitByte d ≠ '-' ∧ digitByte d ≠ '+' := by
  interval_cases d <;> decide

theorem digitByte_eq_digitChar (d : Nat) (hd : d < 10) : digitByte d = Nat.digitChar d := by
  interval_cases d <;> decide

theorem parseDigits_fmtDecimalLoop (fuel : Nat) :
    ∀ (u : Nat) (buf : List Char), u ≤ fuel →
      parseDigits (fmtDecimalLoop fuel u buf) 0 = parseDigits buf u := by
  induction fuel with
  | zero =>
    intro u buf hu
    have h0 : u = 0 := by omega
    subst h0
    simp [fmtDecimalLoop, parseDigits, digitVal_digitByte]
  | succ fuel ih =>
    intro u buf hu
    by_cases h10 : 10 ≤ u
    · have hdiv : u / 10 ≤ fuel := by omega
      have hlt : u - u / 10 * 10 < 10 := by omega
      have hre : u / 10 * 10 + (u - u / 10 * 10) = u := by omega
      simp only [fmtDecimalLoop, h10, if_true]
      rw [ih (u / 10) _ hdiv]
      simp [parseDigits, digitVal_digitByte _ hlt, hre]
    · have hlt : u < 10 := by omega
      simp [fmtDecimalLoop, h10, parseDigits, digitVal_digitByte _ hlt]

theorem fmtDecimalLoop_head (fuel : Nat) :
    ∀ (u : Nat) (buf : List Char), u ≤ fuel →
      ∃ d rest, d < 10 ∧ fmtDecimalLoop fuel u buf = digitByte d :: rest := by
  induction fuel with
  | zero =>
    intro u buf hu
    exact ⟨u, buf, by omega, by simp [fmtDecimalLoop]⟩
  | succ fuel ih =>
    intro u buf hu
    by_cases h10 : 10 ≤ u
    · have hdiv : u / 10 ≤ fuel := by omega
      simp only [fmtDecimalLoop, h10, if_true]
      exact ih (u / 10) _ hdiv
    · exact ⟨u, buf, by omega, by simp [fmtDecimalLoop, h10]⟩

theorem fmtDecimalLoop_eq_toDigitsCore (fuel : Nat) :
    ∀ (gas u : Nat) (buf : List Char), u ≤ fuel → u < gas →
      fmtDecimalLoop fuel u buf = Nat.toDigitsCore 10 gas u buf := by
  induction fuel with
  | zero =>
    intro gas u buf hu hg
    have h0 : u = 0 := by omega
    subst h0
    cases gas with
    | zero => omega
    | succ gas => simp [fmtDecimalLoop, Nat.toDigitsCore, digitByte_eq_digitChar]
  | succ fuel ih =>
    intro gas u buf hu hg
    cases gas with
    | zero => omega
    | succ gas =>
      by_cases h10 : 10 ≤ u
      · have hdiv : u / 10 ≤ fuel := by omega
        have hdg : u / 10 < gas := by omega
        have hne : ¬ u / 10 = 0 := by omega
        have hmod : u - u / 10 * 10 = u % 10 := by omega
        have hlt : u % 10 < 10 := by omega
        simp only [fmtDecimalLoop, h10, if_true, Nat.toDigitsCore, hne, if_false]
        rw [ih gas (u / 10) _ hdiv hdg, hmod, digitByte_eq_digitChar _ hlt]
      · have hlt : u < 10 := by omega
        have hz : u / 10 = 0 := by omega
        have hmod : u % 10 = u := by omega
        simp [fmtDecimalLoop, h10, Nat.toDigitsCore, hz, hmod, digitByte_eq_digitChar _ hlt]

theorem fmtInteger_eq_repr (n : Int) :
    fmtInteger n = (if n < 0 then "-" else "") ++ Nat.repr n.natAbs := by
  have hd : fmtDecimalLoop n.natAbs n.natAbs [] = Nat.toDigits 10 n.natAbs :=
    fmtDecimalLoop_eq_toDigitsCore _ _ _ _ (le_refl _) (Nat.lt_succ_self _)
  unfold fmtInteger
  simp only [hd, Nat.repr, List.asString]
  by_cases hn : n < 0
  · simp only [hn, if_true]
    rfl
  · simp only [hn, if_false]
    apply String.ext
    simp

theorem parseDecimal_fmtInteger (n : Int) : parseDecimal (fmtInteger n) = some n := by
  obtain ⟨d, rest, hd, hhead⟩ := fmtDecimalLoop_head n.natAbs n.natAbs [] (le_refl _)
  have hparse := parseDigits_fmtDecimalLoop n.natAbs n.natAbs [] (le_refl _)
  have hsign := digitByte_ne_sign d hd
  by_cases hn : n < 0
  · have hne : fmtDecimalLoop n.natAbs n.natAbs [] ≠ [] := by simp [hhead]
    simp [parseDecimal, fmtInteger, hn, hne, hparse, parseDigits]
    rw [abs_of_neg hn, neg_neg]
  · have hval : ((n.natAbs : Nat) : Int) = n := by omega
    have hp : parseDigits (digitByte d :: rest) 0 = some n.natAbs := by
      rw [← hhead, hparse]; rfl
    simp [parseDecimal, fmtInteger, hn, hhead, hsign.1, hsign.2, hp, hval]

theorem pathPlain_facts (c : Char) (h : pathPlain c = true) :
    c.toNat < 128 ∧ 32 ≤ c.toNat ∧ c.toNat ≠ 127 ∧ c.toNat ≠ 37 ∧ c.toNat ≠ 35 ∧
      c.toNat ≠ 63 ∧ shouldEscape c.toNat = false := by
  simp only [pathPlain, unreserved, Bool.or_eq_true, decide_eq_true_eq] at h
  refine ⟨by omega, by omega, by omega, by omega, by omega, by omega, ?_⟩
  unfold shouldEscape
  by_cases h1 : (97 ≤ c.toNat ∧ c.toNat ≤ 122) ∨ (65 ≤ c.toNat ∧ c.toNat ≤ 90) ∨
      (48 ≤ c.toNat ∧ c.toNat ≤ 57)
  · simp [h1]
  · have h2 : c.toNat = 45 ∨ c.toNat = 46 ∨ c.toNat = 95 ∨ c.toNat = 126 ∨ c.toNat = 47 := by
      omega
    rcases h2 with h2 | h2 | h2 | h2 | h2 <;> simp [h2]

theorem cut_of_not_mem (sep : Char) (l : List Char) (h : sep ∉ l) :
    cut sep l = (l, [], false) := by
  induction l with
  | nil => rfl
  | cons c cs ih =>
    have hc : c ≠ sep := fun e => h (by simp [e])
    have hcs : sep ∉ cs := fun e => h (by simp [e])
    simp [cut, hc, ih hcs]

theorem toBytes_of_plain (l : List Char) (h : ∀ c ∈ l, pathPlain c = true) :
    toBytes l = l.map Char.toNat := by
  induction l with
  | nil => rfl
  | cons c cs ih =>
    have hc := (pathPlain_facts c (h c (by simp))).1
    simp [toBytes, utf8Bytes, hc, ih (fun d hd => h d (by simp [hd]))]

theorem unescape_cons_of_ne (b : Nat) (rest : List Nat) (hb : b ≠ 37) :
    unescape (b :: rest) = (unescape rest).map (fun r => b :: r) := by
  rcases rest with _ | ⟨x, _ | ⟨y, r⟩⟩ <;> simp [unescape, hb]

theorem unescape_of_plain (l : List Char) (h : ∀ c ∈ l, pathPlain c = true) :
    unescape (l.map Char.toNat) = some (l.map Char.toNat) := by
  induction l with
  | nil => rfl
  | cons c cs ih =>
    have hc := (pathPlain_facts c (h c (by simp))).2.2.2.1
    have ih2 := ih (fun d hd => h d (by simp [hd]))
    rw [List.map_cons, unescape_cons_of_ne _ _ hc, ih2]
    rfl

theorem escape_of_plain (l : List Char) (h : ∀ c ∈ l, pathPlain c = true) :
    escape (l.map Char.toNat) = l.map Char.toNat := by
  induction l with
  | nil => rfl
  | cons c cs ih =>
    have hc := (pathPlain_facts c (h c (by simp))).2.2.2.2.2.2
    simp [escape, hc, ih (fun d hd => h d (by simp [hd]))]

theorem ofBytes_map_toNat (l : List Char) : ofBytes (l.map Char.toNat) = l := by
  induction l with
  | nil => rfl
  | cons c cs ih =>
    simp only [ofBytes, List.map_cons, List.map_map] at ih ⊢
    rw [ih]
    simp [Char.ofNat_toNat]

theorem not_ctl_of_plain (l : List Char) (h : ∀ c ∈ l, pathPlain c = true) :
    stringContainsCTLByte l = false := by
  simp only [stringContainsCTLByte, List.any_eq_false]
  intro c hc
  have hf := pathPlain_facts c (h c hc)
  simp
  omega

theorem cut_append_of_not_mem (sep : Char) (A B : List Char) (h : sep ∉ A) :
    cut sep (A ++ B) = (A ++ (cut sep B).1, (cut sep B).2.1, (cut sep B).2.2) := by
  induction A with
  | nil => rfl
  | cons c cs ih =>
    have hc : c ≠ sep := fun e => h (by simp [e])
    have hcs : sep ∉ cs := fun e => h (by simp [e])
    simp [cut, hc, ih hcs]

theorem splitQuery_of_not_mem (rest : List Char) (hq : '?' ∉ rest) :
    splitQuery rest = (false, rest, []) := by
  have hcount : rest.count '?' = 0 := List.count_eq_zero_of_not_mem hq
  simp [splitQuery, hcount, cut_of_not_mem '?' rest hq]

theorem parseHierarchy_of_steps (url : URL) (rest authority host path : List Char)
    (hne : url.Scheme ≠ [])
    (h1 : startsWith rest ['/'] = true) (h2 : startsWith rest ['/', '/'] = true)
    (hauth : (cut '/' (rest.drop 2)).1 = authority)
    (hrest : (rest.drop 2).drop authority.length = path)
    (hpa : parseAuthority authority = some host) :
    parseHierarchy url rest = setPath { url with Host := host } path := by
  simp [parseHierarchy, h1, h2, hauth, hrest, hpa, hne]

theorem parseHierarchy_comic (fq : Bool) (rq X : List Char) :
    parseHierarchy ⟨"https".data, [], [], [], [], fq, rq⟩
        ("//mangacross.jp/api/comics/".data ++ X)
      = setPath ⟨"https".data, [], "mangacross.jp".data, [], [], fq, rq⟩
        ("/api/comics/".data ++ X) :=
  parseHierarchy_of_steps _ ("//mangacross.jp/api/comics/".data ++ X) "mangacross.jp".data
    "mangacross.jp".data ("/api/comics/".data ++ X) (show "https".data ≠ [] by decide)
    rfl rfl rfl rfl (by decide)

theorem comic_URL_ne_star (X : List Char) :
    ("https://mangacross.jp/api/comics/".data ++ X) ≠ ['*'] := by
  intro h
  have h0 := congrArg List.head? h
  have h3 : (some 'h' : Option Char) = some '*' := h0
  revert h3
  decide

theorem parse_comic_URL_eq (X : List Char)
    (hctl : stringContainsCTLByte ("https://mangacross.jp/api/comics/".data ++ X) = false) :
    parse ("https://mangacross.jp/api/comics/".data ++ X) =
      parseHierarchy
        ⟨"https".data, [], [], [], [],
          (splitQuery ("//mangacross.jp/api/comics/".data ++ X)).1,
          (splitQuery ("//mangacross.jp/api/comics/".data ++ X)).2.2⟩
        (splitQuery ("//mangacross.jp/api/comics/".data ++ X)).2.1 := by
  have hs : getScheme ("https://mangacross.jp/api/comics/".data ++ X)
      = some ("https".data, "//mangacross.jp/api/comics/".data ++ X) := rfl
  have hlow : "https".data.map Char.toLower = "https".data := by decide
  unfold parse
  rw [hctl, if_neg (by simp), if_neg (comic_URL_ne_star X), hs]
  simp only [hlow]

theorem splitQuery_comic (X : List Char) :
    ∃ X2 : List Char, (splitQuery ("//mangacross.jp/api/comics/".data ++ X)).2.1
      = "//mangacross.jp/api/comics/".data ++ X2 := by
  have hRq : '?' ∉ "//mangacross.jp/api/comics/".data := by decide
  unfold splitQuery
  split
  · rename_i hfq
    have hXne : X ≠ [] := by
      intro hX
      subst hX
      revert hfq
      decide
    exact ⟨X.dropLast, List.dropLast_append_of_ne_nil _ hXne⟩
  · exact ⟨(cut '?' X).1, by rw [cut_append_of_not_mem '?' _ X hRq]⟩

theorem setPath_keeps (u v : URL) (p : List Char) (h : setPath u p = some v) :
    v.Scheme = u.Scheme ∧ v.Host = u.Host ∧ v.Opaque = u.Opaque := by
  unfold setPath at h
  cases hp : unescape (toBytes p) with
  | none => simp [hp] at h
  | some path =>
    simp only [hp, Option.some.injEq] at h
    subst h
    exact ⟨rfl, rfl, rfl⟩

theorem parse_comic_URL_host (X : List Char) (u : URL)
    (h : parse ("https://mangacross.jp/api/comics/".data ++ X) = some u) :
    u.Scheme = "https".data ∧ u.Host = "mangacross.jp".data ∧ u.Opaque = [] := by
  cases hctl : stringContainsCTLByte ("https://mangacross.jp/api/comics/".data ++ X) with
  | true =>
    unfold parse at h
    rw [hctl] at h
    simp at h
  | false =>
    rw [parse_comic_URL_eq X hctl] at h
    obtain ⟨X2, hX2⟩ := splitQuery_comic X
    rw [hX2, parseHierarchy_comic] at h
    exact setPath_keeps _ _ _ h

theorem parse_of_Parse (rawURL : List Char) (u : URL) (h : Parse rawURL = some u) :
    parse (cut '#' rawURL).1 = some u := by
  unfold Parse at h
  cases hp : parse (cut '#' rawURL).1 with
  | none => simp [hp] at h
  | some v =>
    simp only [hp] at h
    split at h
    · exact h
    · split at h
      · cases h
      · exact h

/-- Whatever the title identifier is, if the string that `Crawl` builds parses,
its scheme is https and its host is mangacross.jp, so `parseAuthority` only
meets that host. -/
theorem Parse_comic_URL_host (t : String) (u : URL)
    (h : Parse ("https://mangacross.jp/api/comics/" ++ t ++ ".json").data = some u) :
    u.Scheme = "https".data ∧ u.Host = "mangacross.jp".data ∧ u.Opaque = [] := by
  have hdata : ("https://mangacross.jp/api/comics/" ++ t ++ ".json").data
      = "https://mangacross.jp/api/comics/".data ++ (t.data ++ ".json".data) := by
    simp [String.data_append]
  have hP : '#' ∉ "https://mangacross.jp/api/comics/".data := by decide
  have h2 := parse_of_Parse _ u h
  rw [hdata, cut_append_of_not_mem '#' _ _ hP] at h2
  exact parse_comic_URL_host _ u h2

theorem parse_comic_URL (X : List Char) (hX : ∀ c ∈ X, pathPlain c = true) :
    parse ("https://mangacross.jp/api/comics/".data ++ X) =
      some ⟨"https".data, [], "mangacross.jp".data,
        ("/api/comics/".data ++ X).map Char.toNat, [], false, []⟩ := by
  have hq : '?' ∉ "//mangacross.jp/api/comics/".data ++ X := by
    intro hmem
    rcases List.mem_append.1 hmem with h1 | h1
    · revert h1; decide
    · exact (pathPlain_facts _ (hX _ h1)).2.2.2.2.2.1 rfl
  have hctl : stringContainsCTLByte ("https://mangacross.jp/api/comics/".data ++ X) = false := by
    have h1 := not_ctl_of_plain X hX
    simp only [stringContainsCTLByte] at h1 ⊢
    rw [List.any_append, h1]
    decide
  have hQ : ∀ c ∈ "/api/comics/".data, pathPlain c = true := by decide
  have hplain : ∀ c ∈ "/api/comics/".data ++ X, pathPlain c = true := by
    intro c hc
    rcases List.mem_append.1 hc with h1 | h1
    · exact hQ c h1
    · exact hX c h1
  rw [parse_comic_URL_eq X hctl, splitQuery_of_not_mem _ hq, parseHierarchy_comic]
  simp only [setPath, toBytes_of_plain _ hplain, unescape_of_plain _ hplain,
    escape_of_plain _ hplain, if_true]

/-- For a title identifier made of unreserved characters the request is issued
for the string itself. -/
theorem requestURL_of_unreserved (t : String) (ht : ∀ c ∈ t.data, unreserved c = true) :
    requestURL ("https://mangacross.jp/api/comics/" ++ t ++ ".json")
      = some ("https://mangacross.jp/api/comics/" ++ t ++ ".json") := by
  have hJ : ∀ c ∈ ".json".data, pathPlain c = true := by decide
  have hX : ∀ c ∈ t.data ++ ".json".data, pathPlain c = true := by
    intro c hc
    rcases List.mem_append.1 hc with h1 | h1
    · simp [pathPlain, ht c h1]
    · exact hJ c h1
  have hdata : ("https://mangacross.jp/api/comics/" ++ t ++ ".json").data
      = "https://mangacross.jp/api/comics/".data ++ (t.data ++ ".json".data) := by
    simp [String.data_append]
  have hhash : '#' ∉ "https://mangacross.jp/api/comics/".data ++ (t.data ++ ".json".data) := by
    intro hmem
    rcases List.mem_append.1 hmem with h1 | h1
    · revert h1; decide
    · exact (pathPlain_facts _ (hX _ h1)).2.2.2.2.1 rfl
  have hplain : ∀ c ∈ "/api/comics/".data ++ (t.data ++ ".json".data), pathPlain c = true := by
    have hQ : ∀ c ∈ "/api/comics/".data, pathPlain c = true := by decide
    intro c hc
    rcases List.mem_append.1 hc with h1 | h1
    · exact hQ c h1
    · exact hX c h1
  have hP : Parse ("https://mangacross.jp/api/comics/" ++ t ++ ".json").data =
      some ⟨"https".data, [], "mangacross.jp".data,
        ("/api/comics/".data ++ (t.data ++ ".json".data)).map Char.toNat, [], false, []⟩ := by
    rw [hdata]
    simp only [Parse, cut_of_not_mem _ _ hhash, parse_comic_URL _ hX, if_true]
  have hne : ("/api/comics/".data ++ (t.data ++ ".json".data)).map Char.toNat ≠ [] := by
    intro h
    have h0 := congrArg List.length h
    simp at h0
  have hstar : ("/api/comics/".data ++ (t.data ++ ".json".data)).map Char.toNat ≠ [42] := by
    intro h
    have h0 := congrArg List.head? h
    have h3 : (some 47 : Option Nat) = some 42 := h0
    revert h3
    decide
  have hE : EscapedPath ⟨"https".data, [], "mangacross.jp".data,
        ("/api/comics/".data ++ (t.data ++ ".json".data)).map Char.toNat, [], false, []⟩
      = ("/api/comics/".data ++ (t.data ++ ".json".data)).map Char.toNat := by
    simp only [EscapedPath, ne_eq, not_true_eq_false, false_and, if_false, hstar,
      escape_of_plain _ hplain]
  have hR : RequestURI ⟨"https".data, [], "mangacross.jp".data,
        ("/api/comics/".data ++ (t.data ++ ".json".data)).map Char.toNat, [], false, []⟩
      = "/api/comics/".data ++ (t.data ++ ".json".data) := by
    simp only [RequestURI, hE, hne, if_false, if_true, ofBytes_map_toNat]
    simp
  simp only [requestURL, hP, hR]
  split
  · congr 1
  · rename_i hn
    exact absurd (by decide) hn

theorem Crawl_of_get_error (w : World) (crawler : akitaCrawler) (e0 : GoError)
    (hget : w.respond ("https://mangacross.jp/api/comics/" ++ crawler.TitleID ++ ".json")
      = Except.error e0) :
    (Crawl w crawler).items = [] ∧
      (Crawl w crawler).err = some (GoError.wrap e0 "failed to get response from qiita.") := by
  simp [Crawl, httpGet, hget, Wrap]

theorem Crawl_of_decode_error (w : World) (crawler : akitaCrawler) (body : String)
    (e0 : GoError)
    (hget : w.respond ("https://mangacross.jp/api/comics/" ++ crawler.TitleID ++ ".json")
      = Except.ok body)
    (hdec : w.decodeJSON body = Except.error e0) :
    (Crawl w crawler).items = [] ∧
      (Crawl w crawler).err = some (GoError.wrap e0 "failed to decode response body.") := by
  simp [Crawl, httpGet, hget, hdec, Wrap]

theorem Crawl_of_success (w : World) (crawler : akitaCrawler) (body : String)
    (akita : akitaResponse)
    (hget : w.respond ("https://mangacross.jp/api/comics/" ++ crawler.TitleID ++ ".json")
      = Except.ok body)
    (hdec : w.decodeJSON body = Except.ok akita) :
    (Crawl w crawler).items = akita.Comic.Episodes.map convertEpisodeToItem ∧
      (Crawl w crawler).err = none := by
  simp [Crawl, httpGet, hget, hdec, foldl_append_singleton]

theorem Crawl_err_none (w : World) (crawler : akitaCrawler)
    (hok : (Crawl w crawler).err = none) :
    ∃ body akita,
      w.respond ("https://mangacross.jp/api/comics/" ++ crawler.TitleID ++ ".json")
        = Except.ok body ∧
      w.decodeJSON body = Except.ok akita ∧
      (Crawl w crawler).items = akita.Comic.Episodes.map convertEpisodeToItem := by
  cases hget : w.respond ("https://mangacross.jp/api/comics/" ++ crawler.TitleID ++ ".json") with
  | error e0 =>
    rw [(Crawl_of_get_error w crawler e0 hget).2] at hok
    cases hok
  | ok body =>
    cases hdec : w.decodeJSON body with
    | error e0 =>
      rw [(Crawl_of_decode_error w crawler body e0 hget hdec).2] at hok
      cases hok
    | ok akita =>
      exact ⟨body, akita, rfl, hdec, (Crawl_of_success w crawler body akita hget hdec).1⟩

theorem Crawl_world (w : World) (crawler : akitaCrawler) :
    (Crawl w crawler).world.getCalls
      = w.getCalls ++ ["https://mangacross.jp/api/comics/" ++ crawler.TitleID ++ ".json"] ∧
    (Crawl w crawler).world.requested
      = w.requested ++
        (requestURL ("https://mangacross.jp/api/comics/" ++ crawler.TitleID ++ ".json")).toList := by
  have hreq : ∀ o : Option String,
      (match o with
        | some u => w.requested ++ [u]
        | none => w.requested) = w.requested ++ o.toList := by
    intro o
    cases o <;> simp
  cases hget : w.respond ("https://mangacross.jp/api/comics/" ++ crawler.TitleID ++ ".json") with
  | error e0 => simp [Crawl, httpGet, hget, hreq]
  | ok body =>
    cases hdec : w.decodeJSON body with
    | error e1 => simp [Crawl, httpGet, hget, hdec, hreq]
    | ok akita => simp [Crawl, httpGet, hget, hdec, hreq]

theorem buildFeed_of_err (w : World) (h : akitaHandlerBuilder) (err : GoError)
    (hc : (Crawl w { TitleID := h.TitleID }).err = some err) :
    (buildFeed w h).feed = Feed.zero ∧ (buildFeed w h).err = some err := by
  simp [buildFeed, hc]

theorem buildFeed_of_ok (w : World) (h : akitaHandlerBuilder)
    (hc : (Crawl w { TitleID := h.TitleID }).err = none) :
    (buildFeed w h).feed =
        { Title := h.Title
          Link := some { Href := h.Link }
          Description := h.Description
          Author := some { Name := "", Email := "" }
          Created := h.Created
          Items := (Crawl w { TitleID := h.TitleID }).items } ∧
      (buildFeed w h).err = none := by
  simp [buildFeed, hc]

theorem buildFeed_world_recv (w : World) (h : akitaHandlerBuilder) :
    (buildFeed w h).world = (Crawl w { TitleID := h.TitleID }).world ∧
      (buildFeed w h).recv = h := by
  cases hc : (Crawl w { TitleID := h.TitleID }).err <;> simp [buildFeed, hc]

/-! ## The claims -/

/-- C1: when the upstream GET of the crawler's URL and the JSON decode succeed
with an episode list of length N, `Crawl` returns no error and exactly N items,
the i-th being `convertEpisodeToItem` of the i-th episode (upstream order, nothing
dropped, duplicated or re-sorted, whatever the sort keys are), and the feed built
by `buildFeed` for the same title carries that same list. -/
theorem Crawl_items_in_upstream_order (w : World) (crawler : akitaCrawler)
    (h : akitaHandlerBuilder) (body : String) (akita : akitaResponse)
    (hget : w.respond ("https://mangacross.jp/api/comics/" ++ crawler.TitleID ++ ".json")
      = Except.ok body)
    (hdec : w.decodeJSON body = Except.ok akita)
    (hid : h.TitleID = crawler.TitleID) :
    (Crawl w crawler).err = none ∧
    (Crawl w crawler).items.length = akita.Comic.Episodes.length ∧
    (∀ (i : Nat) (hi : i < akita.Comic.Episodes.length),
      (Crawl w crawler).items[i]? =
        some (convertEpisodeToItem (akita.Comic.Episodes.get ⟨i, hi⟩))) ∧
    (Crawl w crawler).items = akita.Comic.Episodes.map convertEpisodeToItem ∧
    (akita.Comic.Episodes = [] → (Crawl w crawler).items = []) ∧
    (buildFeed w h).err = none ∧
    (buildFeed w h).feed.Items = (Crawl w crawler).items := by
  obtain ⟨hitems, herr⟩ := Crawl_of_success w crawler body akita hget hdec
  have hc : (Crawl w { TitleID := h.TitleID }) = Crawl w crawler := by
    cases crawler
    simp only at hid
    rw [hid]
  have hb := buildFeed_of_ok w h (by rw [hc]; exact herr)
  refine ⟨herr, ?_, ?_, hitems, ?_, hb.2, ?_⟩
  · rw [hitems, List.length_map]
  · intro i hi
    rw [hitems, List.getElem?_map, List.getElem?_eq_getElem hi]
    rfl
  · intro hnil
    rw [hitems, hnil]
    rfl
  · rw [hb.1, hc]

theorem Crawl_items_in_upstream_order_witness :
    sampleWorld.respond ("https://mangacross.jp/api/comics/" ++ "yabai" ++ ".json")
      = Except.ok "yabai-body" ∧
    sampleWorld.decodeJSON "yabai-body" = Except.ok sampleResponse ∧
    (Crawl sampleWorld { TitleID := "yabai" }).err = none ∧
    (Crawl sampleWorld { TitleID := "yabai" }).items.length = 3 ∧
    (Crawl sampleWorld { TitleID := "yabai" }).items =
      [convertEpisodeToItem sampleEpisode1, convertEpisodeToItem sampleEpisode2,
        convertEpisodeToItem sampleEpisode3] ∧
    (buildFeed sampleWorld yabaiHandlerBuilder).feed.Items =
      (Crawl sampleWorld { TitleID := "yabai" }).items := by
  have h := Crawl_items_in_upstream_order sampleWorld { TitleID := "yabai" }
    yabaiHandlerBuilder "yabai-body" sampleResponse rfl rfl rfl
  exact ⟨rfl, rfl, h.1, h.2.1, h.2.2.2.1, h.2.2.2.2.2.2⟩

/-- C2: for every episode, with any integer id, the item identifier is the
decimal string of the id (the digits of the magnitude, with a leading minus sign
for a negative id); parsing the identifier as a decimal integer gives the id
back; so episodes with different ids get different identifiers. -/
theorem convertEpisodeToItem_ID_roundtrip (e e2 : episode) :
    (convertEpisodeToItem e).ID = fmtInteger e.ID ∧
    (convertEpisodeToItem e).ID = (if e.ID < 0 then "-" else "") ++ Nat.repr e.ID.natAbs ∧
    parseDecimal (convertEpisodeToItem e).ID = some e.ID ∧
    (e.ID ≠ e2.ID → (convertEpisodeToItem e).ID ≠ (convertEpisodeToItem e2).ID) := by
  refine ⟨rfl, fmtInteger_eq_repr e.ID, parseDecimal_fmtInteger e.ID, ?_⟩
  intro hne heq
  apply hne
  have h1 := parseDecimal_fmtInteger e.ID
  have h2 := parseDecimal_fmtInteger e2.ID
  have heq2 : fmtInteger e.ID = fmtInteger e2.ID := heq
  rw [heq2, h2] at h1
  exact (Option.some.inj h1).symm

theorem convertEpisodeToItem_ID_roundtrip_witness :
    sampleEpisode2.ID ≠ sampleEpisode1.ID ∧
    (convertEpisodeToItem sampleEpisode2).ID = "-7" ∧
    (convertEpisodeToItem sampleEpisode1).ID = "101" ∧
    parseDecimal (convertEpisodeToItem sampleEpisode2).ID = some (-7) ∧
    (convertEpisodeToItem sampleEpisode2).ID ≠ (convertEpisodeToItem sampleEpisode1).ID := by
  have h := convertEpisodeToItem_ID_roundtrip sampleEpisode2 sampleEpisode1
  exact ⟨by decide, by decide, by decide, h.2.2.1, h.2.2.2 (by decide)⟩

/-- C3: the creation timestamp of the item is the episode's publish-start as an
optional value: absent exactly when publish-start is null (so neither the zero
time nor any other time is put in its place), the same timestamp when it is
present, and independent of publish-end and of the member publish window. -/
theorem convertEpisodeToItem_Created (e : episode) :
    (convertEpisodeToItem e).Created = e.PublishStart ∧
    ((convertEpisodeToItem e).Created = none ↔ e.PublishStart = none) ∧
    (e.PublishStart = none → (convertEpisodeToItem e).Created ≠ some Time.zero) ∧
    (∀ t : Time, e.PublishStart = some t → (convertEpisodeToItem e).Created = some t) ∧
    (∀ pe ms me : Option Time,
      (convertEpisodeToItem
        { e with PublishEnd := pe, MemberPublishStart := ms, MemberPublishEnd := me }).Created
        = e.PublishStart) := by
  refine ⟨rfl, Iff.rfl, ?_, ?_, ?_⟩
  · intro hnone hc
    have hc2 : e.PublishStart = some Time.zero := hc
    rw [hnone] at hc2
    cases hc2
  · intro t ht
    exact ht
  · intro pe ms me
    rfl

theorem convertEpisodeToItem_Created_witness :
    sampleEpisode2.PublishStart = none ∧
    sampleEpisode2.PublishEnd ≠ none ∧
    (convertEpisodeToItem sampleEpisode2).Created = none ∧
    (convertEpisodeToItem sampleEpisode2).Created ≠ some Time.zero ∧
    (convertEpisodeToItem sampleEpisode1).Created = some (Date 2018 3 8 0 0 0 0) := by
  have h2 := convertEpisodeToItem_Created sampleEpisode2
  have h1 := convertEpisodeToItem_Created sampleEpisode1
  exact ⟨rfl, by decide, h2.2.1.2 rfl, h2.2.2.1 rfl, h1.2.2.2.1 _ rfl⟩

/-- C4: for every episode and every page path (empty, without leading slash,
with several leading slashes), the item link is present and its Href is the
string https://mangacross.jp followed by the page path, character for
character. -/
theorem convertEpisodeToItem_Link (e : episode) :
    (convertEpisodeToItem e).Link = some { Href := "https://mangacross.jp" ++ e.PageURL } ∧
    (∃ l : Link, (convertEpisodeToItem e).Link = some l ∧
      l.Href = "https://mangacross.jp" ++ e.PageURL ∧
      l.Href.data = "https://mangacross.jp".data ++ e.PageURL.data ∧
      l.Href.length = 21 + e.PageURL.length) ∧
    (convertEpisodeToItem { e with PageURL := "" }).Link
      = some { Href := "https://mangacross.jp" } ∧
    (convertEpisodeToItem { e with PageURL := "comics/yabai" }).Link
      = some { Href := "https://mangacross.jpcomics/yabai" } ∧
    (convertEpisodeToItem { e with PageURL := "///comics//yabai/3" }).Link
      = some { Href := "https://mangacross.jp///comics//yabai/3" } ∧
    (convertEpisodeToItem { e with PageURL := "/a b?c=%20#d" }).Link
      = some { Href := "https://mangacross.jp/a b?c=%20#d" } := by
  refine ⟨rfl, ⟨_, rfl, rfl, ?_, ?_⟩, ?_, ?_, ?_, ?_⟩
  · simp [String.data_append]
  · rw [String.length_append]
    rfl
  all_goals
    simp only [convertEpisodeToItem]
    decide

/-- C5: the item title is the episode title unchanged, the description is that
same title, and the mapper yields an item for every episode. -/
theorem convertEpisodeToItem_Title_Description (e : episode) :
    (convertEpisodeToItem e).Title = e.Title ∧
    (convertEpisodeToItem e).Description = e.Title ∧
    (convertEpisodeToItem e).Description = (convertEpisodeToItem e).Title ∧
    (∃ item : Item, convertEpisodeToItem e = item ∧ item.Title = e.Title ∧
      item.Description = e.Title) :=
  ⟨rfl, rfl, rfl, _, rfl, rfl, rfl⟩

/-- C6: for every configuration, `buildFeed` returns exactly the error that
`Crawl` returned (so it fails only when `Crawl` fails); an unreachable upstream
and an undecodable body both make `Crawl` fail with the wrapped cause; and
whenever `Crawl` fails the returned feed is the empty one: no title, no link, no
description, no author, zero creation time, no items, whatever the configuration
holds. -/
theorem buildFeed_error_gives_empty_feed (w : World) (h : akitaHandlerBuilder) :
    (buildFeed w h).err = (Crawl w { TitleID := h.TitleID }).err ∧
    (∀ err : GoError, (Crawl w { TitleID := h.TitleID }).err = some err →
      (buildFeed w h).err = some err ∧
      (buildFeed w h).feed = Feed.zero ∧
      (buildFeed w h).feed.Title = "" ∧
      (buildFeed w h).feed.Link = none ∧
      (buildFeed w h).feed.Description = "" ∧
      (buildFeed w h).feed.Author = none ∧
      (buildFeed w h).feed.Created = Time.zero ∧
      (buildFeed w h).feed.Items = []) ∧
    (∀ err : GoError, (buildFeed w h).err = some err →
      (Crawl w { TitleID := h.TitleID }).err = some err) ∧
    (∀ e0 : GoError,
      w.respond ("https://mangacross.jp/api/comics/" ++ h.TitleID ++ ".json")
        = Except.error e0 →
      (buildFeed w h).err = some (GoError.wrap e0 "failed to get response from qiita.") ∧
      (buildFeed w h).feed = Feed.zero) ∧
    (∀ (body : String) (e0 : GoError),
      w.respond ("https://mangacross.jp/api/comics/" ++ h.TitleID ++ ".json")
        = Except.ok body →
      w.decodeJSON body = Except.error e0 →
      (buildFeed w h).err = some (GoError.wrap e0 "failed to decode response body.") ∧
      (buildFeed w h).feed = Feed.zero) := by
  have herr : (buildFeed w h).err = (Crawl w { TitleID := h.TitleID }).err := by
    cases hc : (Crawl w { TitleID := h.TitleID }).err with
    | none => exact (buildFeed_of_ok w h hc).2
    | some err => exact (buildFeed_of_err w h err hc).2
  refine ⟨herr, ?_, ?_, ?_, ?_⟩
  · intro err hc
    obtain ⟨hfeed, he⟩ := buildFeed_of_err w h err hc
    refine ⟨he, hfeed, ?_, ?_, ?_, ?_, ?_, ?_⟩ <;> rw [hfeed] <;> rfl
  · intro err hb
    rw [← herr]
    exact hb
  · intro e0 hget
    have hc := (Crawl_of_get_error w { TitleID := h.TitleID } e0 hget).2
    exact ⟨(buildFeed_of_err w h _ hc).2, (buildFeed_of_err w h _ hc).1⟩
  · intro body e0 hget hdec
    have hc := (Crawl_of_decode_error w { TitleID := h.TitleID } body e0 hget hdec).2
    exact ⟨(buildFeed_of_err w h _ hc).2, (buildFeed_of_err w h _ hc).1⟩

theorem buildFeed_error_gives_empty_feed_witness :
    downWorld.respond ("https://mangacross.jp/api/comics/" ++ yabaiHandlerBuilder.TitleID
      ++ ".json") = Except.error (GoError.base "connection refused") ∧
    (buildFeed downWorld yabaiHandlerBuilder).err =
      some (GoError.wrap (GoError.base "connection refused")
        "failed to get response from qiita.") ∧
    (buildFeed downWorld yabaiHandlerBuilder).feed = Feed.zero ∧
    garbledWorld.decodeJSON "<html>" = Except.error (GoError.base "invalid character") ∧
    (buildFeed garbledWorld yabaiHandlerBuilder).err =
      some (GoError.wrap (GoError.base "invalid character")
        "failed to decode response body.") ∧
    (buildFeed garbledWorld yabaiHandlerBuilder).feed.Title = "" ∧
    (buildFeed garbledWorld yabaiHandlerBuilder).feed.Items = [] := by
  have hd := (buildFeed_error_gives_empty_feed downWorld yabaiHandlerBuilder).2.2.2.1
    (GoError.base "connection refused") rfl
  have hg := (buildFeed_error_gives_empty_feed garbledWorld yabaiHandlerBuilder).2.2.2.2
    "<html>" (GoError.base "invalid character") rfl rfl
  have hg2 := (buildFeed_error_gives_empty_feed garbledWorld yabaiHandlerBuilder).2.1
    _ ((buildFeed_error_gives_empty_feed garbledWorld yabaiHandlerBuilder).1.symm.trans hg.1)
  exact ⟨rfl, hd.1, hd.2, rfl, hg.1, hg2.2.2.1, hg2.2.2.2.2.2.2.2⟩

/-- C7: for every configuration h, whenever the upstream client succeeds (that
is, `Crawl` returns no error), `buildFeed` returns no error and a feed whose
title, link Href, description and creation time are those of h, whose author is
present with empty name and empty email, and whose items are the decoded
episodes mapped in order; h is the same after the call. -/
theorem buildFeed_success_assembles_feed (w : World) (h : akitaHandlerBuilder)
    (hok : (Crawl w { TitleID := h.TitleID }).err = none) :
    (buildFeed w h).err = none ∧
    (buildFeed w h).feed.Title = h.Title ∧
    (buildFeed w h).feed.Link = some { Href := h.Link } ∧
    (buildFeed w h).feed.Description = h.Description ∧
    (buildFeed w h).feed.Created = h.Created ∧
    (buildFeed w h).feed.Author = some { Name := "", Email := "" } ∧
    (buildFeed w h).feed.Items = (Crawl w { TitleID := h.TitleID }).items ∧
    (∃ (body : String) (akita : akitaResponse),
      w.respond ("https://mangacross.jp/api/comics/" ++ h.TitleID ++ ".json")
        = Except.ok body ∧
      w.decodeJSON body = Except.ok akita ∧
      (buildFeed w h).feed.Items = akita.Comic.Episodes.map convertEpisodeToItem) ∧
    (buildFeed w h).recv = h := by
  obtain ⟨hfeed, he⟩ := buildFeed_of_ok w h hok
  obtain ⟨body, akita, hget, hdec, hitems⟩ := Crawl_err_none w { TitleID := h.TitleID } hok
  refine ⟨he, ?_, ?_, ?_, ?_, ?_, ?_, ⟨body, akita, hget, hdec, ?_⟩,
    (buildFeed_world_recv w h).2⟩
  all_goals rw [hfeed]
  exact hitems

theorem buildFeed_success_assembles_feed_witness :
    (Crawl sampleWorld { TitleID := yabaiHandlerBuilder.TitleID }).err = none ∧
    (buildFeed sampleWorld yabaiHandlerBuilder).err = none ∧
    (buildFeed sampleWorld yabaiHandlerBuilder).feed.Title = "僕の心のヤバイやつ" ∧
    (buildFeed sampleWorld yabaiHandlerBuilder).feed.Link
      = some { Href := "https://feeds.kuminecraft.xyz" } ∧
    (buildFeed sampleWorld yabaiHandlerBuilder).feed.Author
      = some { Name := "", Email := "" } ∧
    (buildFeed sampleWorld yabaiHandlerBuilder).feed.Items.length = 3 ∧
    (buildFeed sampleWorld yabaiHandlerBuilder).recv = yabaiHandlerBuilder := by
  have hok : (Crawl sampleWorld { TitleID := yabaiHandlerBuilder.TitleID }).err = none :=
    (Crawl_of_success sampleWorld { TitleID := "yabai" } "yabai-body" sampleResponse
      rfl rfl).2
  have h := buildFeed_success_assembles_feed sampleWorld yabaiHandlerBuilder hok
  have hitems : (Crawl sampleWorld { TitleID := yabaiHandlerBuilder.TitleID }).items.length
      = 3 :=
    congrArg List.length
      (Crawl_of_success sampleWorld { TitleID := "yabai" } "yabai-body" sampleResponse
        rfl rfl).1
  exact ⟨hok, h.1, h.2.1, h.2.2.1, h.2.2.2.2.2.1, by rw [h.2.2.2.2.2.2.1]; exact hitems,
    h.2.2.2.2.2.2.2.2⟩

/-- C8, as amended: for every title identifier t, the string that `Crawl`
passes to `http.Get` is https://mangacross.jp/api/comics/ followed by t verbatim
followed by .json, so `Crawl` itself adds no query parameter and does no escaping
or sanitization; `buildFeed` passes the string built from the TitleID of its
configuration, which for the configured comic is
https://mangacross.jp/api/comics/yabai.json.  The request that `http.Get` issues
is for what the URL handling of `net/url` makes of that string: the string
itself when t is made of letters, digits and the characters - . _ ~, as yabai
is; for other t it need not be, no request being issued for %zz and the request
for a b naming a%20b.json. -/
theorem Crawl_passes_comic_URL (w : World) (crawler : akitaCrawler)
    (h : akitaHandlerBuilder) :
    (Crawl w crawler).world.getCalls
      = w.getCalls ++ ["https://mangacross.jp/api/comics/" ++ crawler.TitleID ++ ".json"] ∧
    ("https://mangacross.jp/api/comics/" ++ crawler.TitleID ++ ".json").data
      = "https://mangacross.jp/api/comics/".data ++ crawler.TitleID.data ++ ".json".data ∧
    (buildFeed w h).world.getCalls
      = w.getCalls ++ ["https://mangacross.jp/api/comics/" ++ h.TitleID ++ ".json"] ∧
    (buildFeed w yabaiHandlerBuilder).world.getCalls
      = w.getCalls ++ ["https://mangacross.jp/api/comics/yabai.json"] ∧
    (Crawl w { TitleID := "a/../b?x=1&y= #z" }).world.getCalls
      = w.getCalls ++ ["https://mangacross.jp/api/comics/a/../b?x=1&y= #z.json"] ∧
    (Crawl w crawler).world.requested
      = w.requested ++
        (requestURL ("https://mangacross.jp/api/comics/" ++ crawler.TitleID ++ ".json")).toList ∧
    ((∀ c ∈ crawler.TitleID.data, unreserved c = true) →
      (Crawl w crawler).world.requested
        = w.requested ++ ["https://mangacross.jp/api/comics/" ++ crawler.TitleID ++ ".json"]) ∧
    (buildFeed w yabaiHandlerBuilder).world.requested
      = w.requested ++ ["https://mangacross.jp/api/comics/yabai.json"] ∧
    (Crawl w { TitleID := "%zz" }).world.requested = w.requested ∧
    (Crawl w { TitleID := "a b" }).world.requested
      = w.requested ++ ["https://mangacross.jp/api/comics/a%20b.json"] := by
  have hyabai : "https://mangacross.jp/api/comics/" ++ yabaiHandlerBuilder.TitleID ++ ".json"
      = "https://mangacross.jp/api/comics/yabai.json" := by decide
  have hzz : requestURL ("https://mangacross.jp/api/comics/" ++ "%zz" ++ ".json") = none := by
    decide
  have hab : requestURL ("https://mangacross.jp/api/comics/" ++ "a b" ++ ".json")
      = some "https://mangacross.jp/api/comics/a%20b.json" := by decide
  refine ⟨(Crawl_world w crawler).1, ?_, ?_, ?_, ?_, (Crawl_world w crawler).2, ?_, ?_,
    ((Crawl_world w _).2.trans (congrArg (fun o => w.requested ++ Option.toList o) hzz)).trans
      (List.append_nil _),
    (Crawl_world w _).2.trans (congrArg (fun o => w.requested ++ Option.toList o) hab)⟩
  · simp [String.data_append]
  · rw [(buildFeed_world_recv w h).1]
    exact (Crawl_world w _).1
  · rw [(buildFeed_world_recv w yabaiHandlerBuilder).1, (Crawl_world w _).1, ← hyabai]
  · rw [(Crawl_world w _).1]
    have hurl : "https://mangacross.jp/api/comics/" ++ "a/../b?x=1&y= #z" ++ ".json"
        = "https://mangacross.jp/api/comics/a/../b?x=1&y= #z.json" := by decide
    rw [← hurl]
  · intro ht
    rw [(Crawl_world w crawler).2, requestURL_of_unreserved _ ht]
    rfl
  · rw [(buildFeed_world_recv w yabaiHandlerBuilder).1, (Crawl_world w _).2,
      requestURL_of_unreserved _ (by decide), ← hyabai]
    rfl

theorem Crawl_passes_comic_URL_witness :
    (∀ c ∈ "yabai".data, unreserved c = true) ∧
    (Crawl sampleWorld { TitleID := "yabai" }).world.getCalls
      = ["https://mangacross.jp/api/comics/yabai.json"] ∧
    (Crawl sampleWorld { TitleID := "yabai" }).world.requested
      = ["https://mangacross.jp/api/comics/yabai.json"] ∧
    (buildFeed sampleWorld yabaiHandlerBuilder).world.requested
      = ["https://mangacross.jp/api/comics/yabai.json"] := by
  have h := Crawl_passes_comic_URL sampleWorld { TitleID := "yabai" } yabaiHandlerBuilder
  exact ⟨by decide, h.1, h.2.2.2.2.2.2.1 (by decide), h.2.2.2.2.2.2.2.1⟩

/-- C8 as stated fails: for the title identifier %zz the string passed to
`http.Get` does not parse as a URL and no request is issued, and for the title
identifier a b the request is issued for the escaped path a%20b.json, so the URL
requested is not always the verbatim string. -/
theorem Crawl_request_not_verbatim :
    (Crawl sampleWorld { TitleID := "%zz" }).world.requested = [] ∧
    (Crawl sampleWorld { TitleID := "%zz" }).world.requested
      ≠ sampleWorld.requested ++ ["https://mangacross.jp/api/comics/" ++ "%zz" ++ ".json"] ∧
    (Crawl sampleWorld { TitleID := "a b" }).world.requested
      = ["https://mangacross.jp/api/comics/a%20b.json"] ∧
    (Crawl sampleWorld { TitleID := "a b" }).world.requested
      ≠ sampleWorld.requested ++ ["https://mangacross.jp/api/comics/" ++ "a b" ++ ".json"] := by
  have h1 : (Crawl sampleWorld { TitleID := "%zz" }).world.requested = [] := by
    rw [(Crawl_world sampleWorld _).2]
    decide
  have h2 : (Crawl sampleWorld { TitleID := "a b" }).world.requested
      = ["https://mangacross.jp/api/comics/a%20b.json"] := by
    rw [(Crawl_world sampleWorld _).2]
    decide
  refine ⟨h1, ?_, h2, ?_⟩
  · rw [h1]
    decide
  · rw [h2]
    decide

/-- C10: two episodes that agree on ID, Title, PageURL and PublishStart are
mapped to the same item, field by field, however their other fields differ. -/
theorem convertEpisodeToItem_depends_on_four_fields (e1 e2 : episode)
    (hID : e1.ID = e2.ID) (hTitle : e1.Title = e2.Title)
    (hURL : e1.PageURL = e2.PageURL) (hStart : e1.PublishStart = e2.PublishStart) :
    convertEpisodeToItem e1 = convertEpisodeToItem e2 ∧
    (convertEpisodeToItem e1).Title = (convertEpisodeToItem e2).Title ∧
    (convertEpisodeToItem e1).Link = (convertEpisodeToItem e2).Link ∧
    (convertEpisodeToItem e1).Created = (convertEpisodeToItem e2).Created ∧
    (convertEpisodeToItem e1).ID = (convertEpisodeToItem e2).ID ∧
    (convertEpisodeToItem e1).Description = (convertEpisodeToItem e2).Description := by
  have heq : convertEpisodeToItem e1 = convertEpisodeToItem e2 := by
    simp only [convertEpisodeToItem, hID, hTitle, hURL, hStart]
  refine ⟨heq, ?_, ?_, ?_, ?_, ?_⟩ <;> rw [heq]

theorem convertEpisodeToItem_depends_on_four_fields_witness :
    sampleEpisode1 ≠ sampleEpisode1Other ∧
    sampleEpisode1.Status ≠ sampleEpisode1Other.Status ∧
    sampleEpisode1.SortVolume ≠ sampleEpisode1Other.SortVolume ∧
    sampleEpisode1.PublishEnd ≠ sampleEpisode1Other.PublishEnd ∧
    convertEpisodeToItem sampleEpisode1 = convertEpisodeToItem sampleEpisode1Other :=
  ⟨by decide, by decide, by decide, by decide,
    (convertEpisodeToItem_depends_on_four_fields sampleEpisode1 sampleEpisode1Other
      rfl rfl rfl rfl).1⟩

end AkitaFeeder
